import Mathlib

/- A shallow embedding of the ink! ERC-20 contract with seat reservations
   (src/lib.rs).  The machine integer type `Balance` (u128) is modelled as
   `Nat` with an explicit reduction modulo `2 ^ 128` at the one
   multiplication and the additions the source performs, matching the
   wrapping semantics of release-profile builds; every place where a
   checked build would instead abort is noted at the theorem that depends
   on it.  Storage hash maps are modelled as association lists with
   overwrite-on-insert, and the per-call inputs of the host environment (caller
   identity, transferred balance) are explicit parameters. -/

/-- The u128 modulus. -/
def W : Nat := 2 ^ 128

/-- The ERC-20 error enum of the source. -/
inductive Error where
  | InsufficientBalance
  | InsufficientAllowance
  | IncorrectValue
  | TransferFailed
  | IncorrectPrice
  | NotOwner
  | NotVerifier
  | CannotFetch
  | SeatTaken
  | SeatMismatch
  deriving DecidableEq, Repr

instance : DecidableEq (Except Error Unit) := fun a b =>
  match a, b with
  | Except.ok u, Except.ok v => isTrue (by cases u; cases v; rfl)
  | Except.error e, Except.error f =>
      if h : e = f then isTrue (by rw [h]) else isFalse (fun hh => h (by cases hh; rfl))
  | Except.ok _, Except.error _ => isFalse (fun hh => by cases hh)
  | Except.error _, Except.ok _ => isFalse (fun hh => by cases hh)

/-- Lookup in an association list (model of `StorageHashMap::get`). -/
def lookupA {α β : Type} [DecidableEq α] : List (α × β) → α → Option β
  | [], _ => none
  | (a, b) :: t, k => if a = k then some b else lookupA t k

/-- Overwriting insert (model of `StorageHashMap::insert`). -/
def insertA {α β : Type} [DecidableEq α] : List (α × β) → α → β → List (α × β)
  | [], k, v => [(k, v)]
  | (a, b) :: t, k, v => if a = k then (k, v) :: t else (a, b) :: insertA t k v

/-- The contract storage struct `Erc20`. -/
structure Erc20 where
  total_supply : Nat
  balances : List (Nat × Nat)
  allowances : List ((Nat × Nat) × Nat)
  price : Nat
  owner : Nat
  contract_balance : Nat
  proof_key : List (Nat × List Nat)
  verifier : List (Nat × Bool)
  seats : List String
  seat_taken : List (String × Bool)
  seat_balance : List (Nat × Bool)
  has_seats : Bool
  deriving DecidableEq, Repr

/-- Constructor `new(initial_supply, price, owner, seats)`. -/
def Erc20.new (initial_supply : Nat) (price : Nat) (owner : Nat)
    (seats : List String) : Erc20 :=
  { total_supply := initial_supply
    balances := insertA [] owner initial_supply
    allowances := []
    price := price
    owner := owner
    contract_balance := 0
    proof_key := []
    verifier := []
    seats := seats
    seat_taken := []
    seat_balance := []
    has_seats := !(seats.length == 0) }

/-- `balance_of`: default 0 for unknown keys. -/
def Erc20.balance_of (s : Erc20) (owner : Nat) : Nat :=
  (lookupA s.balances owner).getD 0

/-- `allowance`: default 0 for unknown keys. -/
def Erc20.allowance (s : Erc20) (owner spender : Nat) : Nat :=
  (lookupA s.allowances (owner, spender)).getD 0

/-- `is_verifier`: default false for unknown keys. -/
def Erc20.is_verifier (s : Erc20) (to_ : Nat) : Bool :=
  (lookupA s.verifier to_).getD false

/-- `proof` in the source does `self.proof_key.get(&to).unwrap().clone()`;
    the `none` result models the `unwrap` panic on a missing key. -/
def Erc20.proof (s : Erc20) (to_ : Nat) : Option (List Nat) :=
  lookupA s.proof_key to_

/-- Private helper `transfer_from_to`. -/
def Erc20.transfer_from_to (s : Erc20) (from_ to_ : Nat) (value : Nat) :
    Erc20 × Except Error Unit :=
  let from_balance := s.balance_of from_
  if from_balance < value then
    (s, Except.error Error.InsufficientBalance)
  else
    let s1 : Erc20 := { s with balances := insertA s.balances from_ (from_balance - value) }
    let to_balance := s1.balance_of to_
    let s2 : Erc20 := { s1 with balances := insertA s1.balances to_ ((to_balance + value) % W) }
    (s2, Except.ok ())

/-- Message `transfer`: `caller` is supplied by the environment. -/
def Erc20.transfer (s : Erc20) (caller to_ : Nat) (value : Nat) :
    Erc20 × Except Error Unit :=
  s.transfer_from_to caller to_ value

/-- Message `add_verifier`. -/
def Erc20.add_verifier (s : Erc20) (caller to_ : Nat) : Erc20 × Except Error Unit :=
  if caller == s.owner then
    ({ s with verifier := insertA s.verifier to_ true }, Except.ok ())
  else
    (s, Except.error Error.NotOwner)

/-- Message `approve`. -/
def Erc20.approve (s : Erc20) (caller spender : Nat) (value : Nat) :
    Erc20 × Except Error Unit :=
  ({ s with allowances := insertA s.allowances (caller, spender) value }, Except.ok ())

/-- Message `burn`.  The source checks the balance of `from` but, on
    failure, returns `Error::InsufficientAllowance` (its local variable is
    even named `allowance`). -/
def Erc20.burn (s : Erc20) (caller from_ : Nat) (value : Nat) :
    Erc20 × Except Error Unit :=
  let is_ver := (lookupA s.verifier caller).getD false
  if is_ver then
    let allowance := (lookupA s.balances from_).getD 0
    if allowance < value then
      (s, Except.error Error.InsufficientAllowance)
    else
      ({ s with balances := insertA s.balances from_ (allowance - value) }, Except.ok ())
  else
    (s, Except.error Error.NotVerifier)

/-- Message `transfer_from`: the allowance write happens only after the
    `?`-propagated balance-checked move has succeeded. -/
def Erc20.transfer_from (s : Erc20) (caller from_ to_ : Nat) (value : Nat) :
    Erc20 × Except Error Unit :=
  let allowance := s.allowance from_ caller
  if allowance < value then
    (s, Except.error Error.InsufficientAllowance)
  else
    match s.transfer_from_to from_ to_ value with
    | (s1, Except.error e) => (s1, Except.error e)
    | (s1, Except.ok _) =>
        ({ s1 with allowances := insertA s1.allowances (from_, caller) (allowance - value) },
          Except.ok ())

/-- Message `is_seat_available`: note `unwrap_or(&true)` — a seat absent
    from `seat_taken` counts as taken. -/
def Erc20.is_seat_available (s : Erc20) (seats : List String) : Bool :=
  seats.all (fun f => !((lookupA s.seat_taken f).getD true))

/-- Message `purchase_tickets`.  The proof record is written before any
    validation; the result of the owner-to-buyer transfer is discarded
    (the source calls `transfer_from_to` without `?`). -/
def Erc20.purchase_tickets (s : Erc20) (to_ : Nat) (value transferred : Nat)
    (signature : List Nat) (seats : List String) : Erc20 × Except Error Unit :=
  let s0 : Erc20 := { s with proof_key := insertA s.proof_key to_ signature }
  if (s0.price * value) % W ≠ transferred then
    (s0, Except.error Error.IncorrectPrice)
  else if !(s0.is_seat_available seats) then
    (s0, Except.error Error.SeatTaken)
  else if value = seats.length then
    let s1 := (s0.transfer_from_to s0.owner to_ value).1
    let s2 : Erc20 := { s1 with contract_balance := (s1.contract_balance + transferred) % W }
    let s3 : Erc20 :=
      { s2 with seat_taken := seats.foldl (fun m f => insertA m f true) s2.seat_taken }
    (s3, Except.ok ())
  else
    (s0, Except.error Error.SeatMismatch)

/-- Message `clear`: on a caller mismatch the source returns
    `Error::IncorrectPrice` (next to a `fix this error` comment); on
    success the host-level payout is external and the treasury field is
    zeroed. -/
def Erc20.clear (s : Erc20) (caller : Nat) : Erc20 × Except Error Unit :=
  if caller ≠ s.owner then
    (s, Except.error Error.IncorrectPrice)
  else
    ({ s with contract_balance := 0 }, Except.ok ())

/-- One public mutating call together with its environment inputs. -/
inductive Op where
  | transferOp (caller to_ : Nat) (value : Nat)
  | approveOp (caller spender : Nat) (value : Nat)
  | transferFromOp (caller from_ to_ : Nat) (value : Nat)
  | burnOp (caller from_ : Nat) (value : Nat)
  | addVerifierOp (caller to_ : Nat)
  | purchaseOp (to_ : Nat) (value transferred : Nat)
      (signature : List Nat) (seats : List String)
  | clearOp (caller : Nat)
  deriving DecidableEq, Repr

/-- Dispatch one call. -/
def applyOp (s : Erc20) (op : Op) : Erc20 × Except Error Unit :=
  match op with
  | Op.transferOp caller to_ v => s.transfer caller to_ v
  | Op.approveOp caller sp v => s.approve caller sp v
  | Op.transferFromOp caller f t v => s.transfer_from caller f t v
  | Op.burnOp caller f v => s.burn caller f v
  | Op.addVerifierOp caller t => s.add_verifier caller t
  | Op.purchaseOp to_ v tr sig seats => s.purchase_tickets to_ v tr sig seats
  | Op.clearOp caller => s.clear caller

/-- Run a serialized sequence of calls, as the host does. -/
def run (s : Erc20) (ops : List Op) : Erc20 :=
  ops.foldl (fun t op => (applyOp t op).1) s

/-- Run one call while accumulating the total successfully burned amount. -/
def stepB (p : Erc20 × Nat) (op : Op) : Erc20 × Nat :=
  match op with
  | Op.burnOp _ _ v =>
      if (applyOp p.1 op).2 = Except.ok () then ((applyOp p.1 op).1, p.2 + v)
      else ((applyOp p.1 op).1, p.2)
  | _ => ((applyOp p.1 op).1, p.2)

/-- Run a sequence of calls with the burned-total accumulator. -/
def runB (p : Erc20 × Nat) (ops : List Op) : Erc20 × Nat :=
  ops.foldl stepB p

/-- Sum of all stored balances. -/
def sumB {α : Type} (m : List (α × Nat)) : Nat :=
  (m.map (fun p => p.2)).sum

/-- The stored `taken` flag of a seat (false when never written). -/
def seatTaken (s : Erc20) (f : String) : Bool :=
  (lookupA s.seat_taken f).getD false

/-- Whether a call overwrites the proof record of account `a`. -/
def writes_proof (op : Op) (a : Nat) : Bool :=
  match op with
  | Op.purchaseOp to_ _ _ _ _ => to_ == a
  | _ => false

/-- A storage state whose owner (account 0) holds no tokens while seat
    "A1" is explicitly marked free. -/
def c1_state : Erc20 :=
  { total_supply := 5
    balances := [(7, 5), (0, 0)]
    allowances := []
    price := 1
    owner := 0
    contract_balance := 0
    proof_key := []
    verifier := []
    seats := ["A1"]
    seat_taken := [("A1", false)]
    seat_balance := []
    has_seats := true }

/-- A storage state in which seat "A1" carries a `taken = true` flag. -/
def c5_state : Erc20 :=
  { total_supply := 5
    balances := [(0, 5)]
    allowances := []
    price := 2
    owner := 0
    contract_balance := 0
    proof_key := []
    verifier := []
    seats := ["A1"]
    seat_taken := [("A1", true)]
    seat_balance := []
    has_seats := true }

@[simp]
theorem sumB_nil {α : Type} : sumB ([] : List (α × Nat)) = 0 := rfl

@[simp]
theorem sumB_cons {α : Type} (a : α) (b : Nat) (t : List (α × Nat)) :
    sumB ((a, b) :: t) = b + sumB t := by
  simp [sumB]

/-- Reading back the key just written returns the written value. -/
theorem lookupA_insertA_self {α β : Type} [DecidableEq α] (m : List (α × β)) (k : α) (v : β) :
    lookupA (insertA m k v) k = some v := by
  induction m with
  | nil => simp [insertA, lookupA]
  | cons p t ih =>
      obtain ⟨a, b⟩ := p
      by_cases h : a = k
      · simp [insertA, lookupA, h]
      · simp [insertA, lookupA, h, ih]

/-- Writing one key does not change the value read at another key. -/
theorem lookupA_insertA_ne {α β : Type} [DecidableEq α] (m : List (α × β)) (k x : α) (v : β)
    (hx : x ≠ k) : lookupA (insertA m k v) x = lookupA m x := by
  have hkx : ¬ k = x := fun hh => hx hh.symm
  induction m with
  | nil => simp [insertA, lookupA, hkx]
  | cons p t ih =>
      obtain ⟨a, b⟩ := p
      by_cases h : a = k
      · subst h
        simp [insertA, lookupA, hkx]
      · by_cases h2 : a = x
        · subst h2
          simp [insertA, lookupA, h]
        · simp [insertA, lookupA, h, h2, ih]

/-- How an overwriting insert changes the sum of stored values. -/
theorem sumB_insertA {α : Type} [DecidableEq α] (m : List (α × Nat)) (k : α) (v : Nat) :
    sumB (insertA m k v) + (lookupA m k).getD 0 = sumB m + v := by
  induction m with
  | nil => simp [insertA, lookupA]
  | cons p t ih =>
      obtain ⟨a, b⟩ := p
      by_cases h : a = k
      · simp [insertA, lookupA, h]
        omega
      · simp [insertA, lookupA, h]
        omega

/-- Any single stored value is at most the sum of all stored values. -/
theorem lookupA_getD_le_sumB {α : Type} [DecidableEq α] (m : List (α × Nat)) (k : α) :
    (lookupA m k).getD 0 ≤ sumB m := by
  induction m with
  | nil => simp [lookupA]
  | cons p t ih =>
      obtain ⟨a, b⟩ := p
      by_cases h : a = k
      · simp [lookupA, h]
      · simp [lookupA, h]
        omega

/-- `transfer_from_to` touches only the `balances` field. -/
theorem transfer_from_to_fields (s : Erc20) (f t : Nat) (v : Nat) :
    (s.transfer_from_to f t v).1.total_supply = s.total_supply ∧
    (s.transfer_from_to f t v).1.allowances = s.allowances ∧
    (s.transfer_from_to f t v).1.price = s.price ∧
    (s.transfer_from_to f t v).1.owner = s.owner ∧
    (s.transfer_from_to f t v).1.contract_balance = s.contract_balance ∧
    (s.transfer_from_to f t v).1.proof_key = s.proof_key ∧
    (s.transfer_from_to f t v).1.verifier = s.verifier ∧
    (s.transfer_from_to f t v).1.seat_taken = s.seat_taken := by
  by_cases h : s.balance_of f < v <;> simp [Erc20.transfer_from_to, h]

/-- A failing `transfer_from_to` returns the state unchanged. -/
theorem transfer_from_to_fail (s : Erc20) (f t : Nat) (v : Nat)
    (h : s.balance_of f < v) :
    s.transfer_from_to f t v = (s, Except.error Error.InsufficientBalance) := by
  simp [Erc20.transfer_from_to, h]

/-- `transfer_from_to` preserves the sum of all balances whenever that sum
    fits in u128 (the credited amount then cannot wrap). -/
theorem transfer_from_to_sum (s : Erc20) (f t : Nat) (v : Nat)
    (hW : sumB s.balances < W) :
    sumB (s.transfer_from_to f t v).1.balances = sumB s.balances := by
  by_cases h : s.balance_of f < v
  · rw [transfer_from_to_fail s f t v h]
  · simp only [Erc20.balance_of] at h
    have hv : v ≤ (lookupA s.balances f).getD 0 := not_lt.mp h
    have hb := lookupA_getD_le_sumB s.balances f
    have h1 := sumB_insertA s.balances f ((lookupA s.balances f).getD 0 - v)
    have h2 := lookupA_getD_le_sumB (insertA s.balances f ((lookupA s.balances f).getD 0 - v)) t
    have hmod :
        ((lookupA (insertA s.balances f ((lookupA s.balances f).getD 0 - v)) t).getD 0 + v) % W
        = (lookupA (insertA s.balances f ((lookupA s.balances f).getD 0 - v)) t).getD 0 + v :=
      Nat.mod_eq_of_lt (by omega)
    have h3 := sumB_insertA (insertA s.balances f ((lookupA s.balances f).getD 0 - v)) t
      ((lookupA (insertA s.balances f ((lookupA s.balances f).getD 0 - v)) t).getD 0 + v)
    simp [Erc20.transfer_from_to, Erc20.balance_of, h, hmod]
    omega

/-- `transfer_from` never changes the total supply. -/
theorem transfer_from_total (s : Erc20) (c f t v : Nat) :
    (s.transfer_from c f t v).1.total_supply = s.total_supply := by
  by_cases ha : s.allowance f c < v
  · simp [Erc20.transfer_from, ha]
  · have hf := (transfer_from_to_fields s f t v).1
    rcases hr : s.transfer_from_to f t v with ⟨s1, r⟩
    rw [hr] at hf
    cases r with
    | error e => simp [Erc20.transfer_from, ha, hr]; simpa using hf
    | ok u => simp [Erc20.transfer_from, ha, hr]; simpa using hf

/-- `transfer_from` preserves the sum of balances when it fits in u128. -/
theorem transfer_from_sum (s : Erc20) (c f t v : Nat) (hW : sumB s.balances < W) :
    sumB (s.transfer_from c f t v).1.balances = sumB s.balances := by
  by_cases ha : s.allowance f c < v
  · simp [Erc20.transfer_from, ha]
  · have hs := transfer_from_to_sum s f t v hW
    rcases hr : s.transfer_from_to f t v with ⟨s1, r⟩
    rw [hr] at hs
    cases r with
    | error e => simp [Erc20.transfer_from, ha, hr]; simpa using hs
    | ok u => simp [Erc20.transfer_from, ha, hr]; simpa using hs

/-- `purchase_tickets` never changes the total supply. -/
theorem purchase_tickets_total (s : Erc20) (t v tr : Nat) (sig : List Nat)
    (seats : List String) :
    (s.purchase_tickets t v tr sig seats).1.total_supply = s.total_supply := by
  have hf := (transfer_from_to_fields { s with proof_key := insertA s.proof_key t sig }
    ({ s with proof_key := insertA s.proof_key t sig } : Erc20).owner t v).1
  simp only [Erc20.purchase_tickets]
  split_ifs <;> simp_all

/-- `purchase_tickets` preserves the sum of balances when it fits in u128. -/
theorem purchase_tickets_sum (s : Erc20) (t v tr : Nat) (sig : List Nat)
    (seats : List String) (hW : sumB s.balances < W) :
    sumB (s.purchase_tickets t v tr sig seats).1.balances = sumB s.balances := by
  have hs := transfer_from_to_sum { s with proof_key := insertA s.proof_key t sig }
    ({ s with proof_key := insertA s.proof_key t sig } : Erc20).owner t v (by simpa using hW)
  simp only [Erc20.purchase_tickets]
  split_ifs <;> simp_all

/-- How `burn` relates the new sum of balances, the old one, and the burned
    amount, in every outcome. -/
theorem burn_sum (s : Erc20) (c f v : Nat) :
    ((s.burn c f v).2 = Except.ok () →
      sumB (s.burn c f v).1.balances + v = sumB s.balances) ∧
    ((s.burn c f v).2 ≠ Except.ok () → (s.burn c f v).1 = s) ∧
    (s.burn c f v).1.total_supply = s.total_supply := by
  by_cases hver : (lookupA s.verifier c).getD false
  · by_cases hbal : (lookupA s.balances f).getD 0 < v
    · simp [Erc20.burn, hver, hbal]
    · have h1 := sumB_insertA s.balances f ((lookupA s.balances f).getD 0 - v)
      have h2 := lookupA_getD_le_sumB s.balances f
      simp [Erc20.burn, hver, hbal]
      omega
  · simp [Erc20.burn, hver]

/-- Unfolding one step of `runB`. -/
theorem runB_cons (p : Erc20 × Nat) (op : Op) (t : List Op) :
    runB p (op :: t) = runB (stepB p op) t := rfl

/-- Unfolding one step of `run`. -/
theorem run_cons (s : Erc20) (op : Op) (t : List Op) :
    run s (op :: t) = run (applyOp s op).1 t := rfl

/-- One step of the burn-accounting run preserves conservation-modulo-burn
    and the recorded total supply. -/
theorem stepB_inv (p : Erc20 × Nat) (op : Op)
    (h1 : sumB p.1.balances + p.2 = p.1.total_supply)
    (h2 : p.1.total_supply < W) :
    sumB (stepB p op).1.balances + (stepB p op).2 = (stepB p op).1.total_supply ∧
    (stepB p op).1.total_supply = p.1.total_supply := by
  obtain ⟨s, burned⟩ := p
  simp only at h1 h2
  have hsW : sumB s.balances < W := by omega
  cases op with
  | transferOp c t v =>
      have hf := (transfer_from_to_fields s c t v).1
      have hs := transfer_from_to_sum s c t v hsW
      simp only [stepB, applyOp, Erc20.transfer]
      rw [hf, hs]
      exact ⟨h1, by trivial⟩
  | approveOp c sp v =>
      simp only [stepB, applyOp, Erc20.approve]
      exact ⟨h1, by trivial⟩
  | transferFromOp c f t v =>
      have hf := transfer_from_total s c f t v
      have hs := transfer_from_sum s c f t v hsW
      simp only [stepB, applyOp]
      rw [hf, hs]
      exact ⟨h1, by trivial⟩
  | burnOp c f v =>
      obtain ⟨hok, hfail, htot⟩ := burn_sum s c f v
      simp only [stepB, applyOp]
      by_cases hr : (s.burn c f v).2 = Except.ok ()
      · have hs := hok hr
        simp only [hr]
        simp only [if_true]
        refine ⟨by omega, htot⟩
      · simp only [if_neg hr]
        rw [hfail hr]
        exact ⟨h1, by trivial⟩
  | addVerifierOp c t =>
      by_cases hc : (c == s.owner) = true
      · simp only [stepB, applyOp, Erc20.add_verifier, if_pos hc]
        exact ⟨h1, by trivial⟩
      · simp only [stepB, applyOp, Erc20.add_verifier, if_neg hc]
        exact ⟨h1, by trivial⟩
  | purchaseOp t v tr sig seats =>
      have hf := purchase_tickets_total s t v tr sig seats
      have hs := purchase_tickets_sum s t v tr sig seats hsW
      simp only [stepB, applyOp]
      rw [hf, hs]
      exact ⟨h1, by trivial⟩
  | clearOp c =>
      by_cases hc : c ≠ s.owner
      · simp only [stepB, applyOp, Erc20.clear, if_pos hc]
        exact ⟨h1, by trivial⟩
      · simp only [stepB, applyOp, Erc20.clear, if_neg hc]
        exact ⟨h1, by trivial⟩

/-- Conservation modulo burn holds along every run. -/
theorem runB_inv (ops : List Op) (p : Erc20 × Nat)
    (h1 : sumB p.1.balances + p.2 = p.1.total_supply)
    (h2 : p.1.total_supply < W) :
    sumB (runB p ops).1.balances + (runB p ops).2 = (runB p ops).1.total_supply ∧
    (runB p ops).1.total_supply = p.1.total_supply := by
  induction ops generalizing p with
  | nil => exact ⟨h1, rfl⟩
  | cons op tl ih =>
      rw [runB_cons]
      obtain ⟨ha, hb⟩ := stepB_inv p op h1 h2
      have hrec := ih (stepB p op) ha (by rw [hb]; exact h2)
      exact ⟨hrec.1, by rw [hrec.2, hb]⟩

/-- Marking seats taken never clears an already-set flag. -/
theorem lookupA_foldl_insert_true (seats : List String) (m : List (String × Bool)) (f : String)
    (h : (lookupA m f).getD false = true) :
    (lookupA (seats.foldl (fun mm g => insertA mm g true) m) f).getD false = true := by
  induction seats generalizing m with
  | nil => exact h
  | cons g t ih =>
      simp only [List.foldl]
      apply ih
      by_cases hg : f = g
      · subst hg
        rw [lookupA_insertA_self]
        rfl
      · rw [lookupA_insertA_ne _ _ _ _ hg]
        exact h

/-- `transfer_from` touches neither proof records nor seat flags. -/
theorem transfer_from_fields (s : Erc20) (c f t v : Nat) :
    (s.transfer_from c f t v).1.proof_key = s.proof_key ∧
    (s.transfer_from c f t v).1.seat_taken = s.seat_taken := by
  by_cases ha : s.allowance f c < v
  · simp [Erc20.transfer_from, ha]
  · have hf := transfer_from_to_fields s f t v
    rcases hr : s.transfer_from_to f t v with ⟨s1, r⟩
    rw [hr] at hf
    simp only [Prod.fst] at hf
    cases r with
    | error e => simp [Erc20.transfer_from, ha, hr]; exact ⟨hf.2.2.2.2.2.1, hf.2.2.2.2.2.2.2⟩
    | ok u => simp [Erc20.transfer_from, ha, hr]; exact ⟨hf.2.2.2.2.2.1, hf.2.2.2.2.2.2.2⟩

/-- No single call ever clears a set seat flag. -/
theorem applyOp_seat_mono (s : Erc20) (op : Op) (f : String)
    (h : seatTaken s f = true) : seatTaken (applyOp s op).1 f = true := by
  cases op with
  | transferOp c t v =>
      have hf := (transfer_from_to_fields s c t v).2.2.2.2.2.2.2
      simp only [applyOp, Erc20.transfer, seatTaken] at *
      rw [hf]
      exact h
  | approveOp c sp v =>
      simp only [applyOp, Erc20.approve, seatTaken] at *
      exact h
  | transferFromOp c f2 t v =>
      have hf := (transfer_from_fields s c f2 t v).2
      simp only [applyOp, seatTaken] at *
      rw [hf]
      exact h
  | burnOp c f2 v =>
      by_cases hver : (lookupA s.verifier c).getD false
      · by_cases hbal : (lookupA s.balances f2).getD 0 < v
        · simp only [applyOp, Erc20.burn, seatTaken] at *
          simp [hver, hbal]
          exact h
        · simp only [applyOp, Erc20.burn, seatTaken] at *
          simp [hver, hbal]
          exact h
      · simp only [applyOp, Erc20.burn, seatTaken] at *
        simp [hver]
        exact h
  | addVerifierOp c t =>
      by_cases hc : (c == s.owner) = true
      · simp only [applyOp, Erc20.add_verifier, if_pos hc, seatTaken] at *
        exact h
      · simp only [applyOp, Erc20.add_verifier, if_neg hc, seatTaken] at *
        exact h
  | purchaseOp t v tr sig seats =>
      have hf := (transfer_from_to_fields { s with proof_key := insertA s.proof_key t sig }
        s.owner t v).2.2.2.2.2.2.2
      simp only [applyOp, Erc20.purchase_tickets]
      split_ifs
      · simpa [seatTaken] using h
      · simpa [seatTaken] using h
      · simp only [seatTaken]
        apply lookupA_foldl_insert_true
        simp only [hf]
        simpa [seatTaken] using h
      · simpa [seatTaken] using h
  | clearOp c =>
      by_cases hc : c ≠ s.owner
      · simp only [applyOp, Erc20.clear, if_pos hc, seatTaken] at *
        exact h
      · simp only [applyOp, Erc20.clear, if_neg hc, seatTaken] at *
        exact h

/-- No sequence of calls ever clears a set seat flag. -/
theorem run_seat_mono (s : Erc20) (ops : List Op) (f : String)
    (h : seatTaken s f = true) : seatTaken (run s ops) f = true := by
  induction ops generalizing s with
  | nil => exact h
  | cons op t ih =>
      rw [run_cons]
      exact ih _ (applyOp_seat_mono s op f h)

/-- A call that does not target account `a` with a purchase leaves a missing
    proof record missing. -/
theorem applyOp_proof_none (s : Erc20) (op : Op) (a : Nat)
    (hw : writes_proof op a = false) (h : lookupA s.proof_key a = none) :
    lookupA (applyOp s op).1.proof_key a = none := by
  cases op with
  | transferOp c t v =>
      have hf := (transfer_from_to_fields s c t v).2.2.2.2.2.1
      simp only [applyOp, Erc20.transfer]
      rw [hf]
      exact h
  | approveOp c sp v =>
      simp only [applyOp, Erc20.approve]
      exact h
  | transferFromOp c f t v =>
      have hf := (transfer_from_fields s c f t v).1
      simp only [applyOp]
      rw [hf]
      exact h
  | burnOp c f v =>
      by_cases hver : (lookupA s.verifier c).getD false
      · by_cases hbal : (lookupA s.balances f).getD 0 < v
        · simp only [applyOp, Erc20.burn]
          simp [hver, hbal]
          exact h
        · simp only [applyOp, Erc20.burn]
          simp [hver, hbal]
          exact h
      · simp only [applyOp, Erc20.burn]
        simp [hver]
        exact h
  | addVerifierOp c t =>
      by_cases hc : (c == s.owner) = true
      · simp only [applyOp, Erc20.add_verifier, if_pos hc]
        exact h
      · simp only [applyOp, Erc20.add_verifier, if_neg hc]
        exact h
  | purchaseOp t v tr sig seats =>
      have hta : a ≠ t := by
        intro hh
        subst hh
        simp [writes_proof] at hw
      have hne : lookupA (insertA s.proof_key t sig) a = none := by
        rw [lookupA_insertA_ne _ _ _ _ hta]
        exact h
      have hf := (transfer_from_to_fields { s with proof_key := insertA s.proof_key t sig }
        s.owner t v).2.2.2.2.2.1
      simp only [applyOp, Erc20.purchase_tickets]
      split_ifs
      · exact hne
      · exact hne
      · simp only [hf]
        exact hne
      · exact hne
  | clearOp c =>
      by_cases hc : c ≠ s.owner
      · simp only [applyOp, Erc20.clear, if_pos hc]
        exact h
      · simp only [applyOp, Erc20.clear, if_neg hc]
        exact h

/-- Along any run with no purchase targeting `a`, the proof record of `a`
    stays missing. -/
theorem run_proof_none (s : Erc20) (ops : List Op) (a : Nat)
    (hw : ∀ op ∈ ops, writes_proof op a = false)
    (h : lookupA s.proof_key a = none) :
    lookupA (run s ops).proof_key a = none := by
  induction ops generalizing s with
  | nil => exact h
  | cons op t ih =>
      rw [run_cons]
      exact ih _ (fun o ho => hw o (List.mem_cons_of_mem op ho))
        (applyOp_proof_none s op a (hw op (List.mem_cons_self op t)) h)

/-- A request containing a seat whose flag is set is reported unavailable. -/
theorem is_seat_available_false_of_taken (s : Erc20) (seats : List String) (f : String)
    (hmem : f ∈ seats) (htaken : seatTaken s f = true) :
    s.is_seat_available seats = false := by
  cases hav : s.is_seat_available seats
  · rfl
  · exfalso
    have hall := hav
    simp only [Erc20.is_seat_available, List.all_eq_true] at hall
    have hf := hall f hmem
    simp only [seatTaken] at htaken
    cases hl : lookupA s.seat_taken f with
    | none =>
        rw [hl] at htaken
        exact absurd htaken (by simp)
    | some b =>
        rw [hl] at htaken
        rw [hl] at hf
        simp at htaken hf
        rw [htaken] at hf
        simp at hf

/-- Claim C1 (failing evaluation): in a state where the owner holds fewer
    tokens than `value`, a `purchase_tickets` call that passes the price,
    seat-availability and length checks does NOT fail: the source discards
    the result of the owner-to-buyer `transfer_from_to`, so the call
    returns success, marks the seat taken, and increments the treasury
    while moving no tokens at all. -/
theorem c1_purchase_not_atomic :
    c1_state.balance_of c1_state.owner < 1 ∧
    (c1_state.price * 1) % W = 1 ∧
    c1_state.is_seat_available ["A1"] = true ∧
    (c1_state.purchase_tickets 2 1 1 [9] ["A1"]).2 = Except.ok () ∧
    seatTaken (c1_state.purchase_tickets 2 1 1 [9] ["A1"]).1 "A1" = true ∧
    (c1_state.purchase_tickets 2 1 1 [9] ["A1"]).1.contract_balance = 1 ∧
    (c1_state.purchase_tickets 2 1 1 [9] ["A1"]).1.balances = c1_state.balances := by
  decide

/-- Claim C2 (failing evaluation): immediately after construction with the
    non-empty catalog ["A1", "A2"], `is_seat_available` already reports the
    catalog seats unavailable — `unwrap_or(&true)` treats never-written
    seats as taken and the constructor never initializes the seat map — so
    an exactly-priced purchase of catalog seats fails with `SeatTaken`. -/
theorem c2_fresh_seats_unavailable :
    (Erc20.new 10 1 0 ["A1", "A2"]).is_seat_available ["A1"] = false ∧
    (Erc20.new 10 1 0 ["A1", "A2"]).is_seat_available ["A1", "A2"] = false ∧
    ((Erc20.new 10 1 0 ["A1", "A2"]).purchase_tickets 3 2 2 [7] ["A1", "A2"]).2
      = Except.error Error.SeatTaken := by
  decide

/-- Claim C6 (failing evaluation): a registered verifier burning more than
    the balance of the holder receives `InsufficientAllowance` — not the
    `InsufficientBalance` kind the spec names — though the balance is indeed
    left unchanged. -/
theorem c6_burn_wrong_error_kind :
    Erc20.is_verifier (run (Erc20.new 100 1 0 []) [Op.addVerifierOp 0 1]) 1 = true ∧
    Erc20.balance_of (run (Erc20.new 100 1 0 []) [Op.addVerifierOp 0 1]) 2 < 5 ∧
    ((run (Erc20.new 100 1 0 []) [Op.addVerifierOp 0 1]).burn 1 2 5).2
      = Except.error Error.InsufficientAllowance ∧
    ((run (Erc20.new 100 1 0 []) [Op.addVerifierOp 0 1]).burn 1 2 5).2
      ≠ Except.error Error.InsufficientBalance ∧
    Erc20.balance_of ((run (Erc20.new 100 1 0 []) [Op.addVerifierOp 0 1]).burn 1 2 5).1 2
      = Erc20.balance_of (run (Erc20.new 100 1 0 []) [Op.addVerifierOp 0 1]) 2 := by
  decide

/-- Claim C7 (failing evaluation): a non-owner calling `clear` receives
    `IncorrectPrice` — not `NotOwner` (the source even carries a
    `fix this error` comment there) — while the treasury is indeed left
    unchanged. -/
theorem c7_clear_wrong_error_kind :
    (5 : Nat) ≠ (Erc20.new 100 1 0 []).owner ∧
    ((Erc20.new 100 1 0 []).clear 5).2 = Except.error Error.IncorrectPrice ∧
    ((Erc20.new 100 1 0 []).clear 5).2 ≠ Except.error Error.NotOwner ∧
    ((Erc20.new 100 1 0 []).clear 5).1.contract_balance
      = (Erc20.new 100 1 0 []).contract_balance := by
  decide

/-- Claim C8 (failing evaluation): with price 2^127 and value 2 the product
    price × value equals 2^128, which overflows u128; under release
    (wrapping) semantics the product wraps to 0, so a call with attached
    payment 0 PASSES the price comparison instead of being rejected, commits
    the proof-record write, and only fails later with `SeatMismatch`; a
    checked build would abort on the multiplication instead of returning a
    typed error.  Either way the operation is not "rejected with all its
    intended mutations discarded". -/
theorem c8_unchecked_arithmetic :
    W ≤ (Erc20.new 0 (2 ^ 127) 0 []).price * 2 ∧
    (Erc20.new 0 (2 ^ 127) 0 []).price * 2 ≠ 0 ∧
    ((Erc20.new 0 (2 ^ 127) 0 []).purchase_tickets 1 2 0 [1] []).2
      ≠ Except.error Error.IncorrectPrice ∧
    ((Erc20.new 0 (2 ^ 127) 0 []).purchase_tickets 1 2 0 [1] []).2
      = Except.error Error.SeatMismatch ∧
    Erc20.proof ((Erc20.new 0 (2 ^ 127) 0 []).purchase_tickets 1 2 0 [1] []).1 1 = some [1] := by
  decide

/-- Claim C3 (counterexample): starting from supply 10, after registering a
    verifier and successfully burning 3 tokens from the owner, the sum of
    all balances is 7 while `total_supply()` still returns 10 — `burn`
    never updates the stored total supply, so conservation as claimed
    fails. -/
theorem c3_conservation_counterexample :
    (runB (Erc20.new 10 1 0 [], 0) [Op.addVerifierOp 0 1, Op.burnOp 1 0 3]).2 = 3 ∧
    sumB (run (Erc20.new 10 1 0 []) [Op.addVerifierOp 0 1, Op.burnOp 1 0 3]).balances = 7 ∧
    (run (Erc20.new 10 1 0 []) [Op.addVerifierOp 0 1, Op.burnOp 1 0 3]).total_supply = 10 ∧
    sumB (run (Erc20.new 10 1 0 []) [Op.addVerifierOp 0 1, Op.burnOp 1 0 3]).balances
      ≠ (run (Erc20.new 10 1 0 []) [Op.addVerifierOp 0 1, Op.burnOp 1 0 3]).total_supply := by
  decide

/-- Claim C3 (amended): along every run from construction, the sum of all
    balances plus the total successfully burned amount equals
    `total_supply()`, which never changes from the initial supply; a
    successful `burn(from, value)` lowers the sum of balances by exactly
    `value` but leaves `total_supply()` unchanged. -/
theorem c3_conservation_modulo_burn :
    (∀ (init price owner : Nat) (seats : List String) (ops : List Op),
      init < W →
      sumB (runB (Erc20.new init price owner seats, 0) ops).1.balances
          + (runB (Erc20.new init price owner seats, 0) ops).2
        = (runB (Erc20.new init price owner seats, 0) ops).1.total_supply ∧
      (runB (Erc20.new init price owner seats, 0) ops).1.total_supply = init) ∧
    (∀ (s : Erc20) (c f v : Nat),
      (s.burn c f v).2 = Except.ok () →
      sumB (s.burn c f v).1.balances + v = sumB s.balances ∧
      (s.burn c f v).1.total_supply = s.total_supply) := by
  constructor
  · intro init price owner seats ops hinit
    have hbase : sumB (Erc20.new init price owner seats, 0).1.balances
        + (Erc20.new init price owner seats, 0).2
        = (Erc20.new init price owner seats, 0).1.total_supply := by
      simp [Erc20.new, insertA]
    have hW0 : (Erc20.new init price owner seats, 0).1.total_supply < W := by
      simpa [Erc20.new] using hinit
    exact runB_inv ops _ hbase hW0
  · intro s c f v hok
    obtain ⟨hk, _, htot⟩ := burn_sum s c f v
    exact ⟨hk hok, htot⟩

/-- Claim C3 (witness): the amended conservation law evaluated on a
    concrete run containing a successful burn. -/
theorem c3_conservation_modulo_burn_witness :
    (sumB (runB (Erc20.new 10 1 0 [], 0) [Op.addVerifierOp 0 1, Op.burnOp 1 0 3]).1.balances
        + (runB (Erc20.new 10 1 0 [], 0) [Op.addVerifierOp 0 1, Op.burnOp 1 0 3]).2
      = (runB (Erc20.new 10 1 0 [], 0) [Op.addVerifierOp 0 1, Op.burnOp 1 0 3]).1.total_supply) ∧
    sumB ((run (Erc20.new 10 1 0 []) [Op.addVerifierOp 0 1]).burn 1 0 3).1.balances + 3
      = sumB (run (Erc20.new 10 1 0 []) [Op.addVerifierOp 0 1]).balances := by
  refine ⟨(c3_conservation_modulo_burn.1 10 1 0 []
    [Op.addVerifierOp 0 1, Op.burnOp 1 0 3] (by decide)).1, ?_⟩
  exact (c3_conservation_modulo_burn.2 (run (Erc20.new 10 1 0 []) [Op.addVerifierOp 0 1])
    1 0 3 (by decide)).1

/-- Claim C4: when the allowance granted to the caller covers `value`, a `transfer_from`
    against an underfunded `from` account fails with `InsufficientBalance`
    and returns the state untouched (so the checked allowance is
    unchanged); when the call succeeds, the allowance is decremented by
    exactly `value`. -/
theorem c4_transfer_from_allowance (s : Erc20) (c f t v : Nat)
    (ha : v ≤ s.allowance f c) :
    (s.balance_of f < v →
      s.transfer_from c f t v = (s, Except.error Error.InsufficientBalance)) ∧
    ((s.transfer_from c f t v).2 = Except.ok () →
      (s.transfer_from c f t v).1.allowance f c = s.allowance f c - v) := by
  have hna : ¬ s.allowance f c < v := not_lt.mpr ha
  constructor
  · intro hb
    simp [Erc20.transfer_from, hna, transfer_from_to_fail s f t v hb]
  · intro hok
    rcases hr : s.transfer_from_to f t v with ⟨s1, r⟩
    cases r with
    | error e =>
        rw [Erc20.transfer_from] at hok
        simp only [hna, if_false, hr] at hok
        simp at hok
    | ok u =>
        simp only [Erc20.allowance] at hna
        simp [Erc20.transfer_from, Erc20.allowance, hna, hr, lookupA_insertA_self]

/-- Claim C4 (witness): both halves evaluated after an `approve` for 20. -/
theorem c4_transfer_from_allowance_witness :
    (run (Erc20.new 10 1 0 []) [Op.approveOp 0 1 20]).transfer_from 1 0 2 15
      = (run (Erc20.new 10 1 0 []) [Op.approveOp 0 1 20],
          Except.error Error.InsufficientBalance) ∧
    ((run (Erc20.new 10 1 0 []) [Op.approveOp 0 1 20]).transfer_from 1 0 2 5).1.allowance 0 1
      = (run (Erc20.new 10 1 0 []) [Op.approveOp 0 1 20]).allowance 0 1 - 5 := by
  exact ⟨(c4_transfer_from_allowance (run (Erc20.new 10 1 0 []) [Op.approveOp 0 1 20])
            1 0 2 15 (by decide)).1 (by decide),
         (c4_transfer_from_allowance (run (Erc20.new 10 1 0 []) [Op.approveOp 0 1 20])
            1 0 2 5 (by decide)).2 (by decide)⟩

/-- Claim C5 (counterexample): a `purchase_tickets` request that includes
    the already-taken seat "A1" but attaches the wrong payment fails with
    `IncorrectPrice`, not `SeatTaken` — the price comparison runs first, so
    the claim "any subsequent request including that seat fails with
    `SeatTaken`" does not hold as stated. -/
theorem c5_seat_taken_counterexample :
    seatTaken c5_state "A1" = true ∧
    (c5_state.purchase_tickets 9 1 0 [0] ["A1"]).2 = Except.error Error.IncorrectPrice ∧
    (c5_state.purchase_tickets 9 1 0 [0] ["A1"]).2 ≠ Except.error Error.SeatTaken := by
  decide

/-- Claim C5 (amended): once the `taken` flag of a seat is true it stays true
    across every sequence of further calls; and a `purchase_tickets`
    request including that seat fails — with `SeatTaken` whenever the
    attached payment passes the price comparison (with `IncorrectPrice`
    otherwise, per the counterexample). -/
theorem c5_seat_taken_monotone :
    (∀ (s : Erc20) (ops : List Op) (f : String),
      seatTaken s f = true → seatTaken (run s ops) f = true) ∧
    (∀ (s : Erc20) (t v tr : Nat) (sig : List Nat) (seats : List String) (f : String),
      f ∈ seats → seatTaken s f = true →
      (s.price * v) % W = tr →
      (s.purchase_tickets t v tr sig seats).2 = Except.error Error.SeatTaken) := by
  constructor
  · exact fun s ops f h => run_seat_mono s ops f h
  · intro s t v tr sig seats f hmem htaken hpr
    have hava : ({ s with proof_key := insertA s.proof_key t sig } : Erc20).is_seat_available
        seats = false :=
      is_seat_available_false_of_taken s seats f hmem htaken
    simp only [Erc20.purchase_tickets]
    split_ifs with h1 h2 h3
    · exact absurd hpr h1
    · rfl
    · rw [hava] at h2
      exact absurd h2 (by decide)
    · rw [hava] at h2
      exact absurd h2 (by decide)

/-- Claim C5 (witness): the amended statement evaluated on a state whose
    seat "A1" is taken: the flag survives an unrelated call, and a
    correctly priced purchase for "A1" fails with `SeatTaken`. -/
theorem c5_seat_taken_monotone_witness :
    seatTaken (run c5_state [Op.approveOp 1 2 3]) "A1" = true ∧
    (c5_state.purchase_tickets 9 1 2 [0] ["A1"]).2 = Except.error Error.SeatTaken := by
  exact ⟨c5_seat_taken_monotone.1 c5_state [Op.approveOp 1 2 3] "A1" (by decide),
         c5_seat_taken_monotone.2 c5_state 9 1 2 [0] ["A1"] "A1" (by decide) (by decide)
           (by decide)⟩

/-- Claim C9: when the attached payment equals price × value (a product
    within u128), every requested seat is available, and `value` differs
    from the number of requested seats, `purchase_tickets` fails with
    `SeatMismatch`, leaving balances, treasury, and seat flags unchanged
    (only the proof record has been overwritten). -/
theorem c9_purchase_seat_mismatch (s : Erc20) (t v tr : Nat) (sig : List Nat)
    (seats : List String) (htr : tr < W) (hpay : tr = s.price * v)
    (hav : s.is_seat_available seats = true) (hlen : v ≠ seats.length) :
    (s.purchase_tickets t v tr sig seats).2 = Except.error Error.SeatMismatch ∧
    (s.purchase_tickets t v tr sig seats).1.balances = s.balances ∧
    (s.purchase_tickets t v tr sig seats).1.contract_balance = s.contract_balance ∧
    (s.purchase_tickets t v tr sig seats).1.seat_taken = s.seat_taken := by
  have hpr : (s.price * v) % W = tr := by
    rw [hpay] at htr ⊢
    exact Nat.mod_eq_of_lt htr
  have hava : ({ s with proof_key := insertA s.proof_key t sig } : Erc20).is_seat_available
      seats = true := hav
  simp only [Erc20.purchase_tickets]
  split_ifs with h1 h2
  · exact absurd hpr h1
  · rw [hava] at h2
    exact absurd h2 (by decide)
  · exact ⟨rfl, rfl, rfl, rfl⟩

/-- Claim C9 (witness): a purchase of zero seats with `value = 1` and exact
    payment fails with `SeatMismatch` and changes nothing listed. -/
theorem c9_purchase_seat_mismatch_witness :
    ((Erc20.new 10 1 0 []).purchase_tickets 2 1 1 [5] []).2
      = Except.error Error.SeatMismatch ∧
    ((Erc20.new 10 1 0 []).purchase_tickets 2 1 1 [5] []).1.balances
      = (Erc20.new 10 1 0 []).balances ∧
    ((Erc20.new 10 1 0 []).purchase_tickets 2 1 1 [5] []).1.contract_balance
      = (Erc20.new 10 1 0 []).contract_balance ∧
    ((Erc20.new 10 1 0 []).purchase_tickets 2 1 1 [5] []).1.seat_taken
      = (Erc20.new 10 1 0 []).seat_taken :=
  c9_purchase_seat_mismatch (Erc20.new 10 1 0 []) 2 1 1 [5] []
    (by decide) (by decide) (by decide) (by decide)

/-- Claim C10: `proof` is not total at the public interface: starting from
    construction, for every account never targeted by a `purchase_tickets`
    call, the proof record is absent and the `.unwrap()` in the source panics
    (modelled here by `proof` returning `none`), whereas the other getters
    fall back to defaults (`balance_of` to 0, `is_verifier` to false) on
    missing keys. -/
theorem c10_proof_unwrap_panics (init price owner : Nat) (seats : List String)
    (ops : List Op) (a : Nat)
    (hw : ∀ op ∈ ops, writes_proof op a = false) :
    Erc20.proof (run (Erc20.new init price owner seats) ops) a = none ∧
    (∀ s2 : Erc20, lookupA s2.balances a = none → s2.balance_of a = 0) ∧
    (∀ s2 : Erc20, lookupA s2.verifier a = none → s2.is_verifier a = false) := by
  refine ⟨?_, ?_, ?_⟩
  · have h0 : lookupA (Erc20.new init price owner seats).proof_key a = none := rfl
    exact run_proof_none _ ops a hw h0
  · intro s2 h
    simp [Erc20.balance_of, h]
  · intro s2 h
    simp [Erc20.is_verifier, h]

/-- Claim C10 (witness): after a transfer and a purchase targeting account
    4, account 3 still has no proof record, so `proof(3)` panics. -/
theorem c10_proof_unwrap_panics_witness :
    Erc20.proof (run (Erc20.new 10 1 0 [])
      [Op.transferOp 0 1 5, Op.purchaseOp 4 0 0 [8] []]) 3 = none :=
  (c10_proof_unwrap_panics 10 1 0 [] [Op.transferOp 0 1 5, Op.purchaseOp 4 0 0 [8] []] 3
    (by decide)).1
